import Mathlib

/-!
Shallow embedding of the core of the `pyppms` repository (PUMAPI client):
the quasi-CSV codec (`src/pyppms/common.py` and the legacy
`src/pumapy/common.py`), and the connection / cache / authentication logic
(`src/pyppms/ppms.py`).  Python strings are modelled as Lean `String`
(operating on the underlying `List Char`), Python dicts as association
lists with first-insertion order and last-write-wins values, the on-disk
cache as an association list from file path to file content, and raised
exceptions as `Except` errors.
-/

namespace Pyppms

/-- A parsed scalar value: Python keeps either the string or a coerced
boolean (`process_response_values`). -/
inductive Value where
  | str (s : String)
  | bool (b : Bool)
deriving DecidableEq

/-- The Python exceptions raised by the embedded code. -/
inductive PyErr where
  | connectionError (msg : String)
  | valueError (msg : String)
  | noData (msg : String)
  | indexError (msg : String)
deriving DecidableEq

/-- The message carried by an exception (Python `str(err)`). -/
def PyErr.msg : PyErr → String
  | .connectionError m => m
  | .valueError m => m
  | .noData m => m
  | .indexError m => m

/-! ## Python string primitives -/

/-- `sub.startsWithChars l`: the char list `sub` is an initial segment of `l`. -/
def startsWithChars : List Char → List Char → Bool
  | [], _ => true
  | _ :: _, [] => false
  | a :: as, b :: bs => a = b && startsWithChars as bs

/-- `hasSub sub l`: the char list `sub` occurs contiguously inside `l`
(Python `sub in l`). -/
def hasSub (sub : List Char) : List Char → Bool
  | [] => startsWithChars sub []
  | c :: rest => startsWithChars sub (c :: rest) || hasSub sub rest

/-- Python `sub in s` on strings. -/
def strContains (s sub : String) : Bool := hasSub sub.data s.data

/-- Python `s.lower()` (ASCII; sufficient for the markers used by the code). -/
def pyLower (s : String) : String := ⟨s.data.map Char.toLower⟩

/-- Python `line.split(sep)` accumulator: fields collected in reverse. -/
def splitCharAux (sep : Char) : List Char → List Char → List (List Char)
  | [], cur => [cur.reverse]
  | c :: rest, cur =>
    if c = sep then cur.reverse :: splitCharAux sep rest []
    else splitCharAux sep rest (c :: cur)

/-- Python `s.split(sep)` for a one-character separator: fields are delimited
exactly at the separator's occurrences, with no escaping (`"".split(",") = [""]`). -/
def pySplit (sep : Char) (s : String) : List String :=
  (splitCharAux sep s.data []).map fun l => ⟨l⟩

/-- Python `str.splitlines` accumulator (handling `\n`, `\r\n` and `\r`). -/
def splitlinesAux : List Char → List Char → List String
  | [], cur => if cur.isEmpty then [] else [⟨cur.reverse⟩]
  | '\r' :: '\n' :: rest, cur => ⟨cur.reverse⟩ :: splitlinesAux rest []
  | '\r' :: rest, cur => ⟨cur.reverse⟩ :: splitlinesAux rest []
  | '\n' :: rest, cur => ⟨cur.reverse⟩ :: splitlinesAux rest []
  | c :: rest, cur => splitlinesAux rest (c :: cur)

/-- Python `s.splitlines()` (`"".splitlines() = []`, a trailing terminator
adds no empty line). -/
def pySplitlines (s : String) : List String := splitlinesAux s.data []

/-- Python `s.strip(chars)` on the character class `p`: remove every leading
and every trailing character satisfying `p` (all of them, not just one). -/
def stripChar (p : Char → Bool) (l : List Char) : List Char :=
  ((l.dropWhile p).reverse.dropWhile p).reverse

/-- Python `s.strip('"')`. -/
def stripQuotes (s : String) : String := ⟨stripChar (fun c => c = '"') s.data⟩

/-- Python `s.strip()` (whitespace). -/
def stripWS (s : String) : String := ⟨stripChar Char.isWhitespace s.data⟩

/-! ## Python dict -/

/-- Python `dict.update` on association lists: an existing key keeps its
position and gets the new value, a new key is appended. -/
def pyDictUpd {α : Type} (d p : List (String × α)) : List (String × α) :=
  p.foldl
    (fun acc kv =>
      if (List.lookup kv.1 acc).isSome then
        acc.map fun kv2 => if kv2.1 = kv.1 then (kv2.1, kv.2) else kv2
      else acc ++ [kv])
    d

/-- Python `dict.update` on the request parameter dicts. -/
def pyUpdate (d p : List (String × String)) : List (String × String) :=
  pyDictUpd d p

/-- Python `dict(l)` for a list of key/value pairs (used for `dict(zip(...))`):
first-occurrence order, last value wins. -/
def pyDictV (l : List (String × Value)) : List (String × Value) :=
  pyDictUpd [] l

/-- Python `d[k]` on a request dict, defaulting to `""` (the embedded code
only reads keys that are present). -/
def pyGet (l : List (String × String)) (k : String) : String :=
  (l.lookup k).getD ""

/-! ## `process_response_values` (`src/pyppms/common.py`, lines 14-37;
identical in `src/pumapy/common.py`) -/

/-- One element of the in-place loop: strip surrounding double quotes, then
coerce the literal tokens `true` / `false` to booleans. -/
def processResponseValue (v : String) : Value :=
  let s := stripQuotes v
  if s = "true" then .bool true
  else if s = "false" then .bool false
  else .str s

/-- `process_response_values`: the whole list, processed in place. -/
def process_response_values (values : List String) : List Value :=
  values.map processResponseValue

/-! ## The `csv.reader` used by `pyppms.common.dict_from_single_response`
(default dialect: delimiter `,`, quote char `"`, doubled quotes, non-strict) -/

inductive CsvMode where
  | startRecord | startField | inField | inQuoted | quoteInQuoted
deriving DecidableEq

structure CsvState where
  recs : List (List String)
  curRec : List String
  fld : List Char
  mode : CsvMode

/-- One character of the CSV state machine. -/
def csvStep (st : CsvState) (c : Char) : CsvState :=
  match st.mode with
  | .startRecord =>
    if c = '\n' then { st with recs := st.recs ++ [[]] }
    else if c = '"' then { st with mode := .inQuoted }
    else if c = ',' then { st with curRec := [""], mode := .startField }
    else { st with fld := [c], mode := .inField }
  | .startField =>
    if c = '\n' then
      { recs := st.recs ++ [st.curRec ++ [""]], curRec := [], fld := [], mode := .startRecord }
    else if c = '"' then { st with mode := .inQuoted }
    else if c = ',' then { st with curRec := st.curRec ++ [""] }
    else { st with fld := [c], mode := .inField }
  | .inField =>
    if c = '\n' then
      { recs := st.recs ++ [st.curRec ++ [⟨st.fld⟩]], curRec := [], fld := [], mode := .startRecord }
    else if c = ',' then
      { st with curRec := st.curRec ++ [⟨st.fld⟩], fld := [], mode := .startField }
    else { st with fld := st.fld ++ [c] }
  | .inQuoted =>
    if c = '"' then { st with mode := .quoteInQuoted }
    else { st with fld := st.fld ++ [c] }
  | .quoteInQuoted =>
    if c = '"' then { st with fld := st.fld ++ [c], mode := .inQuoted }
    else if c = ',' then
      { st with curRec := st.curRec ++ [⟨st.fld⟩], fld := [], mode := .startField }
    else if c = '\n' then
      { recs := st.recs ++ [st.curRec ++ [⟨st.fld⟩]], curRec := [], fld := [], mode := .startRecord }
    else { st with fld := st.fld ++ [c], mode := .inField }

/-- Flush the pending record at end of input. -/
def csvFinalize (st : CsvState) : List (List String) :=
  match st.mode with
  | .startRecord => st.recs
  | .startField => st.recs ++ [st.curRec ++ [""]]
  | _ => st.recs ++ [st.curRec ++ [⟨st.fld⟩]]

/-- `list(csv.reader(StringIO(text), delimiter=","))`: the list of records,
honoring double-quoted fields (a quoted comma does NOT delimit). -/
def csvParse (text : String) : List (List String) :=
  csvFinalize (text.data.foldl csvStep ⟨[], [], [], .startRecord⟩)

/-! ## `dict_from_single_response` (`src/pyppms/common.py`, lines 40-103) -/

/-- The body of the `try` block of `dict_from_single_response`. -/
def dict_from_single_inner (text : String) (graceful : Bool) :
    Except PyErr (List (String × Value)) :=
  let lines := csvParse text
  if lines.length ≠ 2 ∧ ¬graceful then
    .error (.valueError "Invalid response format!")
  else
    match lines with
    | header :: data :: _ =>
      let data := process_response_values data
      if header.length = data.length then .ok (pyDictV (header.zip data))
      else if ¬graceful then
        .error (.valueError "Parsing CSV failed, mismatch of header vs. data fields count")
      else
        let m := min header.length data.length
        if m < header.length then .ok (pyDictV ((header.take m).zip data))
        else .ok (pyDictV (header.zip (data.take m)))
    | _ => .error (.indexError "list index out of range")

/-- `dict_from_single_response` of `src/pyppms/common.py`: the `"\n\n"`
special case, the `try` body, and the `except Exception` wrapper that
re-raises everything as a `ValueError`. -/
def dict_from_single_response (text : String) (graceful : Bool) :
    Except PyErr (List (String × Value)) :=
  if text = "\n\n" then .ok [("", .str "")]
  else
    match dict_from_single_inner text graceful with
    | .error e =>
      .error (.valueError
        ("Unable to parse data returned by PUMAPI: " ++ text ++ " - ERROR: " ++ e.msg))
    | .ok r => .ok r

/-! ## Legacy `dict_from_single_response` (`src/pumapy/common.py`, lines
37-96): naive `line.split(",")`, no `"\n\n"` special case. -/

/-- The body of the `try` block of the legacy (pumapy) variant. -/
def pumapy_dict_from_single_inner (text : String) (graceful : Bool) :
    Except PyErr (List (String × Value)) :=
  let lines := pySplitlines text
  if lines.length ≠ 2 ∧ ¬graceful then
    .error (.valueError "Invalid response format!")
  else
    match lines with
    | h :: d :: _ =>
      let header := pySplit ',' h
      let data := process_response_values (pySplit ',' d)
      if header.length = data.length then .ok (pyDictV (header.zip data))
      else if ¬graceful then
        .error (.valueError "Parsing CSV failed, mismatch of header vs. data fields count")
      else
        let m := min header.length data.length
        if m < header.length then .ok (pyDictV ((header.take m).zip data))
        else .ok (pyDictV (header.zip (data.take m)))
    | _ => .error (.indexError "list index out of range")

/-- `dict_from_single_response` of `src/pumapy/common.py`. -/
def pumapy_dict_from_single_response (text : String) (graceful : Bool) :
    Except PyErr (List (String × Value)) :=
  match pumapy_dict_from_single_inner text graceful with
  | .error e =>
    .error (.valueError
      ("Unable to parse data returned by PUMAPI: " ++ text ++ " - ERROR: " ++ e.msg))
  | .ok r => .ok r

/-! ## `parse_multiline_response` (`src/pyppms/common.py`, lines 106-191) -/

/-- The per-data-line loop of `parse_multiline_response`, carrying the
(possibly narrowed) header across rows. -/
def multilineLoop (graceful : Bool) :
    List String → List String → List (List (String × Value)) →
    Except PyErr (List (List (String × Value)))
  | _, [], acc => .ok acc
  | header, line :: rest, acc =>
    let data := process_response_values (pySplit ',' line)
    if header.length = data.length then
      multilineLoop graceful header rest (acc ++ [pyDictV (header.zip data)])
    else if ¬graceful then
      .error (.valueError "Parsing CSV failed, mismatch of header vs. data fields count")
    else
      let m := min header.length data.length
      if m < header.length then
        multilineLoop graceful (header.take m) rest
          (acc ++ [pyDictV ((header.take m).zip data)])
      else
        multilineLoop graceful header rest
          (acc ++ [pyDictV (header.zip (data.take m))])

/-- The body of the `try` block of `parse_multiline_response`. -/
def parse_multiline_inner (text : String) (graceful : Bool) :
    Except PyErr (List (List (String × Value))) :=
  match pySplitlines text with
  | l0 :: l1 :: rest =>
    multilineLoop graceful ((pySplit ',' l0).map stripWS) (l1 :: rest) []
  | _ =>
    if ¬graceful then .error (.noData "Invalid response format!") else .ok []

/-- `parse_multiline_response`: a `NoDataError` escapes the `except`
clauses unchanged, every other exception is re-raised as a `ValueError`. -/
def parse_multiline_response (text : String) (graceful : Bool) :
    Except PyErr (List (List (String × Value))) :=
  match parse_multiline_inner text graceful with
  | .error (.noData m) => .error (.noData m)
  | .error e =>
    .error (.valueError
      ("Unable to parse data returned by PUMAPI: " ++ text ++ " - ERROR: " ++ e.msg))
  | .ok r => .ok r

/-! ## `PpmsConnection` (`src/pyppms/ppms.py`)

The mutable attributes touched by `request` / `__authenticate` are modelled
as a record; the on-disk cache is an association list from file path to
file content; the outcome of the (external) `requests.post` call is passed
in as an explicit `online : Response` argument. -/

/-- A `requests.Response` (or the `PseudoResponse` built from the cache):
just the attributes the code reads. -/
structure Response where
  text : String
  status_code : Int
deriving DecidableEq

/-- The on-disk cache: file path to file content. -/
abbrev FS := List (String × String)

/-- `os.path.exists` + `open(...).read()`. -/
def fsLookup (fs : FS) (p : String) : Option String :=
  List.lookup p fs

/-- `open(path, "w").write(content)`: create or overwrite the file. -/
def fsWrite (fs : FS) (p v : String) : FS :=
  (p, v) :: List.filter (fun kv => kv.1 ≠ p) fs

/-- The `PpmsConnection` attributes used by `request`, the interception
helpers and `__authenticate`. -/
structure PpmsConnection where
  url : String
  api_key : String
  cache_path : String
  cache_users_only : Bool
  auth_state : String
  auth_response : Option String
  auth_httpstatus : Int
  last_served_from_cache : Bool
deriving DecidableEq

/-- Lexicographic comparison of char lists by code point: the order Python
uses to sort the parameter keys in `__interception_path`. -/
def charsLe : List Char → List Char → Bool
  | [], _ => true
  | _ :: _, [] => false
  | a :: as, b :: bs => if a = b then charsLe as bs else decide (a.toNat < b.toNat)

/-- Python `<=` on strings (code-point lexicographic). -/
def strLeP (a b : String) : Prop := charsLe a.data b.data = true

instance : DecidableRel strLeP := fun a b =>
  inferInstanceAs (Decidable (charsLe a.data b.data = true))

theorem charsLe_total : ∀ l1 l2 : List Char, charsLe l1 l2 = true ∨ charsLe l2 l1 = true
  | [], _ => .inl rfl
  | _ :: _, [] => .inr rfl
  | a :: as, b :: bs => by
    by_cases hab : a = b
    · subst hab
      simpa [charsLe] using charsLe_total as bs
    · have hba : b ≠ a := fun h => hab h.symm
      have hv : a.toNat ≠ b.toNat := fun h => hab (Char.ext (UInt32.ext h))
      rcases Nat.lt_or_ge a.toNat b.toNat with h | h
      · exact .inl (by simp [charsLe, hab, h])
      · exact .inr (by simp [charsLe, hba, Nat.lt_of_le_of_ne h (fun h2 => hv h2.symm)])

theorem charsLe_antisymm : ∀ l1 l2 : List Char,
    charsLe l1 l2 = true → charsLe l2 l1 = true → l1 = l2
  | [], [], _, _ => rfl
  | [], _ :: _, _, h2 => by simp [charsLe] at h2
  | _ :: _, [], h1, _ => by simp [charsLe] at h1
  | a :: as, b :: bs, h1, h2 => by
    by_cases hab : a = b
    · subst hab
      simp only [charsLe, if_pos rfl] at h1 h2
      exact congrArg _ (charsLe_antisymm as bs h1 h2)
    · have hba : b ≠ a := fun h => hab h.symm
      simp only [charsLe, if_neg hab, decide_eq_true_eq] at h1
      simp only [charsLe, if_neg hba, decide_eq_true_eq] at h2
      exact absurd h2 (Nat.lt_asymm h1)

theorem charsLe_trans : ∀ l1 l2 l3 : List Char,
    charsLe l1 l2 = true → charsLe l2 l3 = true → charsLe l1 l3 = true
  | [], _, _, _, _ => rfl
  | _ :: _, [], _, h1, _ => by simp [charsLe] at h1
  | _ :: _, _ :: _, [], _, h2 => by simp [charsLe] at h2
  | a :: as, b :: bs, c :: cs, h1, h2 => by
    by_cases hab : a = b <;> by_cases hbc : b = c
    · subst hab; subst hbc
      simp only [charsLe, if_pos rfl] at h1 h2 ⊢
      exact charsLe_trans as bs cs h1 h2
    · subst hab
      simpa [charsLe, hbc] using h2
    · subst hbc
      simpa [charsLe, hab] using h1
    · simp only [charsLe, if_neg hab, decide_eq_true_eq] at h1
      simp only [charsLe, if_neg hbc, decide_eq_true_eq] at h2
      have hac : a.toNat < c.toNat := Nat.lt_trans h1 h2
      have : a ≠ c := fun h => by subst h; exact Nat.lt_irrefl _ hac
      simp [charsLe, this, hac]

instance : IsTotal String strLeP := ⟨fun a b => charsLe_total a.data b.data⟩

instance : IsTrans String strLeP := ⟨fun a b c => charsLe_trans a.data b.data c.data⟩

instance : IsAntisymm String strLeP :=
  ⟨fun a b h1 h2 => by
    cases a; cases b
    exact congrArg _ (charsLe_antisymm _ _ h1 h2)⟩

/-- The `req_data` dict of `request`:
`{"action": action, "apikey": api_key}` updated with the caller's
parameters (`ppms.py`, lines 210-211). -/
def reqData (c : PpmsConnection) (action : String)
    (params : List (String × String)) : List (String × String) :=
  pyUpdate [("action", action), ("apikey", c.api_key)] params

/-- `os.path.join` for the two-component joins used here. -/
def pathJoin (a b : String) : String :=
  if a = "" then b else a ++ "/" ++ b

/-- The keys skipped when building the signature (`ppms.py`, line 279):
the action name and the credential key. -/
def excludedKey (k : String) : Bool := k = "action" ∨ k = "apikey"

/-- One iteration of the signature loop (`ppms.py`, lines 278-281). -/
def sigStep (req : List (String × String)) (acc key : String) : String :=
  if excludedKey key then acc
  else acc ++ "__" ++ key ++ "--" ++ pyGet req key

/-- The signature file name built by `__interception_path`
(`ppms.py`, lines 272-284): sorted keys, `action` and `apikey` skipped,
`__key--value` chunks, sentinel `__response`, leading `__` stripped,
`.txt` appended. -/
def interception_sig (req : List (String × String)) : String :=
  let keylist := (req.map Prod.fst).insertionSort strLeP
  let sig := keylist.foldl (sigStep req) ""
  let sig := if sig = "" then "__response" else sig
  (⟨sig.data.drop 2⟩ : String) ++ ".txt"

/-- `__interception_path` (`ppms.py`, lines 240-286): `None` when the
`cache_users_only` policy excludes the action, otherwise
`cache_path/action/signature`. -/
def interception_path (c : PpmsConnection) (req : List (String × String)) :
    Option String :=
  let action := pyGet req "action"
  if c.cache_users_only ∧ action ≠ "getuser" then none
  else some (pathJoin (pathJoin c.cache_path action) (interception_sig req))

/-- The sibling status-code file of a cache file
(`os.path.splitext(f)[0] + "_status-code.txt"`; every cache file name ends
in `.txt`). -/
def statusFile (p : String) : String :=
  (⟨p.data.take (p.data.length - 4)⟩ : String) ++ "_status-code.txt"

/-- The status code served with a cached body: the sibling status file if
present, 200 otherwise (`ppms.py`, lines 332-337). -/
def cachedStatus (fs : FS) (p : String) : Int :=
  match fsLookup fs (statusFile p) with
  | some s => (s.toInt?).getD 0
  | none => 200

/-- `__intercept_read` (`ppms.py`, lines 288-338): `Except.error ()` is the
`LookupError` signalling a cache miss. -/
def intercept_read (c : PpmsConnection) (fs : FS)
    (req : List (String × String)) : Except Unit Response :=
  if c.cache_path = "" then .error ()
  else
    match interception_path c req with
    | none => .error ()
    | some p =>
      match fsLookup fs p with
      | none => .error ()
      | some text => .ok ⟨text, cachedStatus fs p⟩

/-- `__intercept_store` (`ppms.py`, lines 340-372): best-effort write of the
response body (the status code is never stored). -/
def intercept_store (c : PpmsConnection) (fs : FS)
    (req : List (String × String)) (resp : Response) : FS :=
  if c.cache_path = "" then fs
  else
    match interception_path c req with
    | none => fs
    | some p => fsWrite fs p resp.text

/-- The response `request` goes on to inspect, and whether it came from the
cache: the cache is consulted unless `skip_cache`, the on-line response is
used on a miss (`ppms.py`, lines 214-223). -/
def servedResp (c : PpmsConnection) (fs : FS) (req : List (String × String))
    (skip_cache : Bool) (online : Response) : Response × Bool :=
  if skip_cache then (online, false)
  else
    match intercept_read c fs req with
    | .ok r => (r, true)
    | .error _ => (online, false)

instance exceptDecEq {ε α : Type} [DecidableEq ε] [DecidableEq α] :
    DecidableEq (Except ε α) := fun
  | .ok a, .ok b =>
    if h : a = b then .isTrue (by rw [h]) else .isFalse (by simp [h])
  | .ok _, .error _ => .isFalse (by simp)
  | .error _, .ok _ => .isFalse (by simp)
  | .error a, .error b =>
    if h : a = b then .isTrue (by rw [h]) else .isFalse (by simp [h])

/-- The outcome of one `request` call: the returned response or the raised
exception, the mutated connection object, the mutated cache, and whether
the on-line `requests.post` was executed. -/
structure ReqResult where
  result : Except PyErr Response
  conn : PpmsConnection
  fs : FS
  network : Bool
deriving DecidableEq

/-- `PpmsConnection.request` (`ppms.py`, lines 181-238): serve from cache
unless `skip_cache` or miss, set `last_served_from_cache`, store an on-line
response in the cache, then scan the body for the `request not authorized`
marker; on the marker set `auth_state` to `FAILED` and raise a
`ConnectionError` naming the action. -/
def request (c : PpmsConnection) (fs : FS) (action : String)
    (params : List (String × String)) (skip_cache : Bool)
    (online : Response) : ReqResult :=
  let req := reqData c action params
  let sr := servedResp c fs req skip_cache online
  let resp := sr.1
  let fromCache := sr.2
  let c1 := { c with last_served_from_cache := fromCache }
  let fs1 := if fromCache then fs else intercept_store c1 fs req resp
  if strContains (pyLower resp.text) "request not authorized" then
    { result := .error (.connectionError
        ("Not authorized to run action `" ++ pyGet req "action" ++ "`"))
      conn := { c1 with auth_state := "FAILED" }
      fs := fs1
      network := !fromCache }
  else
    { result := .ok resp, conn := c1, fs := fs1, network := !fromCache }

/-- The outcome of `__authenticate`. -/
structure AuthResult where
  conn : PpmsConnection
  fs : FS
  result : Except PyErr Unit
deriving DecidableEq

/-- Python `s[:2]`. -/
def pyTake2 (s : String) : String := ⟨s.data.take 2⟩

/-- Python `s[-2:]`. -/
def pyTakeLast2 (s : String) : String := ⟨s.data.drop (s.data.length - 2)⟩

/-- `__authenticate` (`ppms.py`, lines 125-179): set `auth_state` to
`attempting`, run `request("auth")` (whose unauthorized check may already
raise with state `FAILED`), record the response, then: a body containing
`error` (case-insensitive) gives `FAILED-ERROR` and raises; a status other
than 200 gives `FAILED-UNKNOWN` and raises; otherwise `good`. -/
def authenticate (c : PpmsConnection) (fs : FS) (online : Response) :
    AuthResult :=
  let c0 := { c with auth_state := "attempting" }
  let r := request c0 fs "auth" [] false online
  match r.result with
  | .error e => ⟨r.conn, r.fs, .error e⟩
  | .ok resp =>
    let c1 := { r.conn with
      auth_response := some resp.text, auth_httpstatus := resp.status_code }
    if strContains (pyLower resp.text) "error" then
      ⟨{ c1 with auth_state := "FAILED-ERROR" }, r.fs,
        .error (.connectionError
          ("Authentication failed with an error: " ++ resp.text))⟩
    else if resp.status_code ≠ 200 then
      ⟨{ c1 with auth_state := "FAILED-UNKNOWN" }, r.fs,
        .error (.connectionError
          ("Authenticating against " ++ c1.url ++ " with key [" ++
            pyTake2 c1.api_key ++ "..." ++ pyTakeLast2 c1.api_key ++
            "] FAILED!"))⟩
    else
      ⟨{ c1 with auth_state := "good" }, r.fs, .ok ()⟩

/-! ## Association-list lemmas -/

theorem lookup_eq_none_iff {α : Type} (l : List (String × α)) (k : String) :
    List.lookup k l = none ↔ k ∉ l.map Prod.fst := by
  induction l with
  | nil => simp
  | cons kv t ih =>
    cases kv with
    | mk k1 v1 =>
      by_cases h : k = k1
      · subst h; simp [List.lookup]
      · simp [List.lookup, beq_false_of_ne h, ih, h]

theorem lookup_perm {α : Type} :
    ∀ {l1 l2 : List (String × α)}, l1.Perm l2 →
      (l1.map Prod.fst).Nodup → ∀ k, List.lookup k l1 = List.lookup k l2 := by
  intro l1 l2 h
  induction h with
  | nil => intro _ _; rfl
  | cons x h ih =>
    intro hn k
    cases x with
    | mk k1 v1 =>
      simp only [List.map_cons, List.nodup_cons] at hn
      by_cases hk : k = k1
      · subst hk; simp [List.lookup]
      · simp [List.lookup, beq_false_of_ne hk, ih hn.2 k]
  | swap x y t =>
    intro hn k
    cases x with
    | mk kx vx =>
      cases y with
      | mk ky vy =>
        simp only [List.map_cons, List.nodup_cons, List.mem_cons] at hn
        have hxy : ky ≠ kx := fun h2 => hn.1 (.inl h2)
        by_cases h1 : k = ky <;> by_cases h2 : k = kx
        · exact absurd (h1 ▸ h2 : ky = kx) hxy
        · subst h1; simp [List.lookup, beq_false_of_ne hxy]
        · subst h2
          simp [List.lookup, beq_false_of_ne (fun h3 => hxy h3.symm)]
        · simp [List.lookup, beq_false_of_ne h1, beq_false_of_ne h2]
  | trans h1 h2 ih1 ih2 =>
    intro hn k
    rw [ih1 hn k, ih2 (((h1.map Prod.fst).nodup_iff).mp hn) k]

theorem pyDictUpd_eq_append {α : Type} :
    ∀ (p acc : List (String × α)), (p.map Prod.fst).Nodup →
      (∀ k ∈ p.map Prod.fst, List.lookup k acc = none) →
      pyDictUpd acc p = acc ++ p := by
  intro p
  induction p with
  | nil => intro acc _ _; simp [pyDictUpd]
  | cons kv t ih =>
    intro acc hn h
    cases kv with
    | mk k v =>
      have hk : List.lookup k acc = none := h k (by simp)
      simp only [List.map_cons, List.nodup_cons] at hn
      have step : pyDictUpd acc ((k, v) :: t) = pyDictUpd (acc ++ [(k, v)]) t := by
        simp [pyDictUpd, hk]
      rw [step, ih (acc ++ [(k, v)]) hn.2]
      · simp
      · intro k2 hk2
        rw [List.lookup_append]
        have h1 : List.lookup k2 acc = none := h k2 (by simp [hk2])
        have hne : k2 ≠ k := fun h3 => hn.1 (h3 ▸ hk2)
        simp [h1, List.lookup, beq_false_of_ne hne]

theorem pyDictV_eq_self (l : List (String × Value))
    (hn : (l.map Prod.fst).Nodup) : pyDictV l = l := by
  have h := pyDictUpd_eq_append l [] hn (fun k _ => rfl)
  simpa [pyDictV] using h

theorem lookup_filter_keep {α : Type} (P : String → Bool) :
    ∀ (l : List (String × α)) (k : String), P k = true →
      List.lookup k (l.filter fun kv => P kv.1) = List.lookup k l := by
  intro l
  induction l with
  | nil => intro k _; rfl
  | cons kv t ih =>
    intro k hk
    cases kv with
    | mk k1 v1 =>
      by_cases h : k = k1
      · subst h
        simp [List.filter, hk, List.lookup]
      · by_cases h1 : P k1 = true
        · simp [List.filter, h1, List.lookup, beq_false_of_ne h, ih k hk]
        · simp only [Bool.not_eq_true] at h1
          simp [List.filter, h1, List.lookup, beq_false_of_ne h, ih k hk]

/-! ## Fold lemmas for the signature computation -/

theorem foldl_filter_of_skip {α β : Type} (p : β → Bool) (f : α → β → α)
    (hf : ∀ a b, p b = false → f a b = a) :
    ∀ (l : List β) (a : α), List.foldl f a l = List.foldl f a (l.filter p) := by
  intro l
  induction l with
  | nil => intro a; rfl
  | cons b t ih =>
    intro a
    by_cases hp : p b = true
    · simp [List.filter, hp, ih]
    · simp only [Bool.not_eq_true] at hp
      simp [List.filter, hp, hf a b hp, ih]

theorem foldl_of_all_skip {α β : Type} (p : β → Bool) (f : α → β → α)
    (hf : ∀ a b, p b = false → f a b = a) :
    ∀ (l : List β) (a : α), (∀ b ∈ l, p b = false) → List.foldl f a l = a := by
  intro l
  induction l with
  | nil => intro a _; rfl
  | cons b t ih =>
    intro a h
    rw [List.foldl_cons, hf a b (h b (List.mem_cons_self b t)),
      ih a (fun b2 hb2 => h b2 (List.mem_cons.mpr (.inr hb2)))]

/-! ## Lemmas about `stripChar` -/

theorem mem_dropWhile_head {α : Type} (p : α → Bool) :
    ∀ (l : List α) (c : α), (l.dropWhile p).head? = some c → p c = false := by
  intro l
  induction l with
  | nil => intro c h; simp [List.dropWhile] at h
  | cons a t ih =>
    intro c h
    by_cases hp : p a = true
    · exact ih c (by simpa [List.dropWhile, hp] using h)
    · simp only [Bool.not_eq_true] at hp
      simp [List.dropWhile, hp] at h
      exact h ▸ hp

theorem dropWhile_eq_strip_append (p : Char → Bool) (l : List Char) :
    l.dropWhile p = stripChar p l ++ ((l.dropWhile p).reverse.takeWhile p).reverse := by
  conv_lhs => rw [← List.reverse_reverse (l.dropWhile p)]
  conv_lhs => rw [← List.takeWhile_append_dropWhile p (l.dropWhile p).reverse]
  rw [List.reverse_append]
  rfl

theorem stripChar_decomp (p : Char → Bool) (l : List Char) :
    ∃ pre suf, l = pre ++ stripChar p l ++ suf ∧
      (∀ c ∈ pre, p c = true) ∧ (∀ c ∈ suf, p c = true) := by
  refine ⟨l.takeWhile p, ((l.dropWhile p).reverse.takeWhile p).reverse, ?_, ?_, ?_⟩
  · have hdrop := dropWhile_eq_strip_append p l
    conv_lhs => rw [← List.takeWhile_append_dropWhile p l, hdrop]
    rw [List.append_assoc]
  · intro c hc
    exact List.mem_takeWhile_imp hc
  · intro c hc
    exact List.mem_takeWhile_imp (List.mem_reverse.mp hc)

theorem stripChar_head (p : Char → Bool) (l : List Char) (c : Char)
    (h : (stripChar p l).head? = some c) : p c = false := by
  have h2 := dropWhile_eq_strip_append p l
  cases hs : stripChar p l with
  | nil => rw [hs] at h; simp at h
  | cons c1 t =>
    rw [hs] at h h2
    simp only [List.head?] at h
    have hc1 : c1 = c := by injection h
    subst hc1
    apply mem_dropWhile_head p l c1
    rw [h2]
    rfl

theorem stripChar_last (p : Char → Bool) (l : List Char) (c : Char)
    (h : (stripChar p l).getLast? = some c) : p c = false := by
  apply mem_dropWhile_head p (l.dropWhile p).reverse c
  have h2 : (stripChar p l).getLast? = ((l.dropWhile p).reverse.dropWhile p).head? := by
    simp [stripChar, List.getLast?_reverse]
  rw [← h2, h]

/-! ## Lemmas about `pySplit` -/

theorem splitCharAux_length (sep : Char) :
    ∀ (l cur : List Char), (splitCharAux sep l cur).length = l.count sep + 1 := by
  intro l
  induction l with
  | nil => intro cur; simp [splitCharAux]
  | cons c t ih =>
    intro cur
    by_cases h : c = sep
    · subst h
      simp [splitCharAux, ih, List.count_cons]
    · simp [splitCharAux, h, ih, List.count_cons]

theorem splitCharAux_no_sep (sep : Char) :
    ∀ (l cur : List Char), sep ∉ cur →
      ∀ f ∈ splitCharAux sep l cur, sep ∉ f := by
  intro l
  induction l with
  | nil =>
    intro cur hc f hf
    simp only [splitCharAux, List.mem_singleton] at hf
    subst hf
    simpa using hc
  | cons c t ih =>
    intro cur hc f hf
    by_cases h : c = sep
    · subst h
      simp only [splitCharAux, eq_self_iff_true, if_true, List.mem_cons] at hf
      rcases hf with hf | hf
      · subst hf; simpa using hc
      · exact ih [] (by simp) f hf
    · simp only [splitCharAux, if_neg h] at hf
      refine ih (c :: cur) ?_ f hf
      simp only [List.mem_cons, not_or]
      exact ⟨fun h2 => h h2.symm, hc⟩

theorem pySplit_length (s : String) :
    (pySplit ',' s).length = s.data.count ',' + 1 := by
  simp [pySplit, splitCharAux_length]

theorem pySplit_no_sep (s : String) : ∀ f ∈ pySplit ',' s, ',' ∉ f.data := by
  intro f hf
  simp only [pySplit, List.mem_map] at hf
  obtain ⟨l, hl, rfl⟩ := hf
  exact splitCharAux_no_sep ',' s.data [] (by simp) l hl

/-! ## Lemmas about `multilineLoop` -/

theorem multilineLoop_graceful_ok :
    ∀ (rows header : List String) (acc : List (List (String × Value))),
      ∃ r, multilineLoop true header rows acc = .ok r := by
  intro rows
  induction rows with
  | nil => intro header acc; exact ⟨acc, rfl⟩
  | cons line rest ih =>
    intro header acc
    simp only [multilineLoop]
    split
    · exact ih _ _
    · split
      · next h2 => simp at h2
      · split
        · exact ih _ _
        · exact ih _ _

theorem multilineLoop_strict_ok :
    ∀ (rows header : List String) (acc : List (List (String × Value))),
      (∀ line ∈ rows, (pySplit ',' line).length = header.length) →
      ∃ r, multilineLoop false header rows acc = .ok r := by
  intro rows
  induction rows with
  | nil => intro header acc _; exact ⟨acc, rfl⟩
  | cons line rest ih =>
    intro header acc h
    have hline : (process_response_values (pySplit ',' line)).length = header.length := by
      simpa [process_response_values] using h line (List.mem_cons_self line rest)
    simp only [multilineLoop, hline.symm, if_pos rfl]
    exact ih header _ (fun l2 hl2 => h l2 (List.mem_cons.mpr (.inr hl2)))

theorem multilineLoop_strict_err :
    ∀ (rows header : List String) (acc : List (List (String × Value))),
      (∃ line ∈ rows, (pySplit ',' line).length ≠ header.length) →
      multilineLoop false header rows acc =
        .error (.valueError "Parsing CSV failed, mismatch of header vs. data fields count") := by
  intro rows
  induction rows with
  | nil => intro header acc h; simp at h
  | cons line rest ih =>
    intro header acc h
    by_cases hline : (pySplit ',' line).length = header.length
    · have hmem : ∃ l2 ∈ rest, (pySplit ',' l2).length ≠ header.length := by
        rcases h with ⟨l2, hl2, hne⟩
        rcases List.mem_cons.mp hl2 with rfl | hl2
        · exact absurd hline hne
        · exact ⟨l2, hl2, hne⟩
      have hlen : (process_response_values (pySplit ',' line)).length = header.length := by
        simpa [process_response_values] using hline
      simp only [multilineLoop, hlen.symm, if_pos rfl]
      exact ih header _ hmem
    · have hlen : ¬header.length = (process_response_values (pySplit ',' line)).length := by
        simpa [process_response_values] using fun h2 => hline h2.symm
      simp [multilineLoop, hlen]

/-! ## Claim theorems for the quasi-CSV codec -/

/-- C4: for every well-formed two-line input (the CSV reader yields exactly a
header record and a data record of equal field counts, and the input is not
the special-cased `"\n\n"`, with distinct header fields), `dict_from_single_response`
returns the zip of the header with the processed data fields in any mode, so
field order is preserved and each value is the processed (de-quoted,
`true`/`false`-coerced) data field. -/
theorem dict_from_single_well_formed :
    ∀ (text : String) (graceful : Bool) (h d : List String),
      csvParse text = [h, d] → h.length = d.length → text ≠ "\n\n" → h.Nodup →
      dict_from_single_response text graceful =
        .ok (h.zip (process_response_values d)) ∧
      (h.zip (process_response_values d)).map Prod.fst = h := by
  intro text graceful h d hcsv hlen hne hnd
  have hmap : (h.zip (process_response_values d)).map Prod.fst = h :=
    List.map_fst_zip h (process_response_values d)
      (by simp [process_response_values, hlen])
  refine ⟨?_, hmap⟩
  have hlen2 : h.length = (process_response_values d).length := by
    simp [process_response_values, hlen]
  have hdict : pyDictV (h.zip (process_response_values d)) =
      h.zip (process_response_values d) :=
    pyDictV_eq_self _ (by rw [hmap]; exact hnd)
  simp [dict_from_single_response, dict_from_single_inner, hcsv, hne, hlen2, hdict]

/-- C4 witness: a concrete well-formed two-line response decoded in strict
mode, with the boolean token coerced. -/
theorem dict_from_single_well_formed_witness :
    dict_from_single_response "a,b\nc,true" false =
      .ok [("a", Value.str "c"), ("b", Value.bool true)] := by
  have h := dict_from_single_well_formed "a,b\nc,true" false ["a", "b"]
    ["c", "true"] (by decide) (by decide) (by decide) (by decide)
  rw [h.1]
  decide

/-- C5 counterexample: `str.strip('"')` removes EVERY layer of surrounding
double quotes, not exactly one pair, so the field `""true""` is coerced to a
boolean instead of staying the string `"true"` (with one quote layer). -/
theorem process_response_value_double_quoted_true :
    processResponseValue "\"\"true\"\"" = Value.bool true ∧
      processResponseValue "\"\"true\"\"" ≠ Value.str "\"true\"" := by decide

/-- C5 (amended): for every field, ALL leading and trailing double-quote
characters are stripped (the stripped core neither starts nor ends with a
quote); after that stripping exactly the case-sensitive literals `true` and
`false` become booleans and every other value passes through as the stripped
string. -/
theorem process_response_value_strip_all_quotes :
    ∀ v : String,
      (∃ n m, v.data = List.replicate n '"' ++ (stripQuotes v).data ++
        List.replicate m '"') ∧
      (∀ c, (stripQuotes v).data.head? = some c → c ≠ '"') ∧
      (∀ c, (stripQuotes v).data.getLast? = some c → c ≠ '"') ∧
      (processResponseValue v = Value.bool true ↔ stripQuotes v = "true") ∧
      (processResponseValue v = Value.bool false ↔ stripQuotes v = "false") ∧
      (stripQuotes v ≠ "true" → stripQuotes v ≠ "false" →
        processResponseValue v = Value.str (stripQuotes v)) := by
  intro v
  refine ⟨?_, ?_, ?_, ?_, ?_, ?_⟩
  · obtain ⟨pre, suf, hdec, hpre, hsuf⟩ :=
      stripChar_decomp (fun c => c = '"') v.data
    refine ⟨pre.length, suf.length, ?_⟩
    have hpre2 : pre = List.replicate pre.length '"' :=
      List.eq_replicate_length.mpr fun b hb => of_decide_eq_true (hpre b hb)
    have hsuf2 : suf = List.replicate suf.length '"' :=
      List.eq_replicate_length.mpr fun b hb => of_decide_eq_true (hsuf b hb)
    rw [← hpre2, ← hsuf2]
    exact hdec
  · intro c hc
    have h := stripChar_head (fun c => c = '"') v.data c hc
    simpa using h
  · intro c hc
    have h := stripChar_last (fun c => c = '"') v.data c hc
    simpa using h
  · by_cases h1 : stripQuotes v = "true"
    · simp [processResponseValue, h1]
    · by_cases h2 : stripQuotes v = "false" <;>
        simp [processResponseValue, h1, h2]
  · by_cases h1 : stripQuotes v = "true"
    · simp [processResponseValue, h1]
    · by_cases h2 : stripQuotes v = "false" <;>
        simp [processResponseValue, h1, h2]
  · intro h1 h2
    simp [processResponseValue, h1, h2]

/-- C5 amended witness: applying the amended statement at `""x""`, whose
core is `x` with two quote layers stripped. -/
theorem process_response_value_strip_all_quotes_witness :
    processResponseValue "\"\"x\"\"" = Value.str (stripQuotes "\"\"x\"\"") :=
  (process_response_value_strip_all_quotes "\"\"x\"\"").2.2.2.2.2
    (by decide) (by decide)

/-- C6 counterexample: the current (pyppms) `dict_from_single_response` goes
through `csv.reader`, so the double-quoted field `"x,y"` is kept as ONE
field containing a comma, not split at its comma. -/
theorem dict_from_single_quoted_comma_kept :
    dict_from_single_response "a,b\n\"x,y\",z" true =
      .ok [("a", Value.str "x,y"), ("b", Value.str "z")] ∧
      strContains "x,y" "," = true := by decide

/-- C6 (amended): the naive comma split (field boundaries exactly at the
commas, no quoted-comma escaping) holds for `str.split(",")` as used by the
legacy pumapy `dict_from_single_response` and by `parse_multiline_response`:
the field count is the comma count plus one and no field contains a comma —
in particular the legacy decoder splits the quoted field `"x,y"` apart —
while the pyppms `dict_from_single_response` honors CSV quoting and keeps a
quoted comma inside a single field. -/
theorem naive_comma_split_boundaries :
    (∀ s : String, (pySplit ',' s).length = s.data.count ',' + 1) ∧
    (∀ s : String, ∀ f ∈ pySplit ',' s, ',' ∉ f.data) ∧
    pumapy_dict_from_single_response "a,b\n\"x,y\",z" true =
      .ok [("a", Value.str "x"), ("b", Value.str "y")] ∧
    dict_from_single_response "h\n\"p,q\"" true =
      .ok [("h", Value.str "p,q")] :=
  ⟨pySplit_length, pySplit_no_sep, by decide, by decide⟩

/-- C6 amended witness: the naive split of the quoted-comma line has three
fields, and a concrete extracted field contains no comma. -/
theorem naive_comma_split_boundaries_witness :
    (pySplit ',' "\"x,y\",z").length =
      ("\"x,y\",z" : String).data.count ',' + 1 ∧
      ',' ∉ ("z" : String).data :=
  ⟨naive_comma_split_boundaries.1 "\"x,y\",z",
    naive_comma_split_boundaries.2.1 "\"x,y\",z" "z" (by decide)⟩

/-- C7: `parse_multiline_response` in graceful mode never raises (for ragged
rows or anything else); per-row reconciliation truncates the longer side and
narrowing the header at one row persists for all later rows, so the same
data rows in a different order give outputs that are not even a permutation
of each other; in strict mode a `ValueError` is raised as soon as some row's
field count differs from the header's, and it succeeds when all rows
match. -/
theorem parse_multiline_ragged_rows :
    (∀ text : String, ∃ r, parse_multiline_response text true = .ok r) ∧
    (parse_multiline_response "a,b\n1\n2,3" true =
        .ok [[("a", Value.str "1")], [("a", Value.str "2")]] ∧
      parse_multiline_response "a,b\n2,3\n1" true =
        .ok [[("a", Value.str "2"), ("b", Value.str "3")], [("a", Value.str "1")]] ∧
      ¬ List.Perm [[("a", Value.str "1")], [("a", Value.str "2")]]
        [[("a", Value.str "2"), ("b", Value.str "3")], [("a", Value.str "1")]]) ∧
    (∀ (text : String) (l0 : String) (rest : List String),
      pySplitlines text = l0 :: rest →
      (∃ line ∈ rest,
        (pySplit ',' line).length ≠ ((pySplit ',' l0).map stripWS).length) →
      parse_multiline_response text false = .error (.valueError
        ("Unable to parse data returned by PUMAPI: " ++ text ++ " - ERROR: " ++
          "Parsing CSV failed, mismatch of header vs. data fields count"))) ∧
    (∀ (text : String) (l0 : String) (rest : List String),
      pySplitlines text = l0 :: rest → rest ≠ [] →
      (∀ line ∈ rest,
        (pySplit ',' line).length = ((pySplit ',' l0).map stripWS).length) →
      ∃ r, parse_multiline_response text false = .ok r) := by
  refine ⟨?_, ⟨by decide, by decide, by decide⟩, ?_, ?_⟩
  · intro text
    rcases hl : pySplitlines text with _ | ⟨l0, _ | ⟨l1, rest⟩⟩
    · exact ⟨[], by simp [parse_multiline_response, parse_multiline_inner, hl]⟩
    · exact ⟨[], by simp [parse_multiline_response, parse_multiline_inner, hl]⟩
    · obtain ⟨r, hr⟩ :=
        multilineLoop_graceful_ok (l1 :: rest) ((pySplit ',' l0).map stripWS) []
      exact ⟨r, by simp [parse_multiline_response, parse_multiline_inner, hl, hr]⟩
  · rintro text l0 rest hl ⟨line, hmem, hne⟩
    rcases rest with _ | ⟨l1, r2⟩
    · simp at hmem
    · have herr := multilineLoop_strict_err (l1 :: r2)
        ((pySplit ',' l0).map stripWS) [] ⟨line, hmem, hne⟩
      simp [parse_multiline_response, parse_multiline_inner, hl, herr, PyErr.msg]
  · intro text l0 rest hl hne hall
    rcases rest with _ | ⟨l1, r2⟩
    · exact absurd rfl hne
    · obtain ⟨r, hr⟩ := multilineLoop_strict_ok (l1 :: r2)
        ((pySplit ',' l0).map stripWS) [] hall
      exact ⟨r, by simp [parse_multiline_response, parse_multiline_inner, hl, hr]⟩

/-- C7 witness: a ragged table errors in strict mode and a rectangular one
succeeds, at concrete inputs. -/
theorem parse_multiline_ragged_rows_witness :
    parse_multiline_response "a,b\nx" false = .error (.valueError
      ("Unable to parse data returned by PUMAPI: " ++ "a,b\nx" ++ " - ERROR: " ++
        "Parsing CSV failed, mismatch of header vs. data fields count")) ∧
    (∃ r, parse_multiline_response "a,b\nx,y" false = .ok r) :=
  ⟨parse_multiline_ragged_rows.2.2.1 "a,b\nx" "a,b" ["x"] (by decide)
      ⟨"x", by decide, by decide⟩,
    parse_multiline_ragged_rows.2.2.2 "a,b\nx,y" "a,b" ["x,y"] (by decide)
      (by decide) (by decide)⟩

/-- C8: an input with fewer than two lines decodes to the empty sequence in
graceful mode and raises `NoDataError` in strict mode; the `NoDataError`
passes through the re-raising `except` clauses unchanged instead of being
wrapped into the generic `ValueError`. -/
theorem parse_multiline_short_input :
    ∀ text : String, (pySplitlines text).length < 2 →
      parse_multiline_response text true = .ok [] ∧
      parse_multiline_response text false =
        .error (.noData "Invalid response format!") := by
  intro text h
  rcases hl : pySplitlines text with _ | ⟨l0, _ | ⟨l1, rest⟩⟩
  · constructor <;> simp [parse_multiline_response, parse_multiline_inner, hl]
  · constructor <;> simp [parse_multiline_response, parse_multiline_inner, hl]
  · rw [hl] at h
    simp only [List.length_cons] at h
    omega

/-- C8 witness: the empty response. -/
theorem parse_multiline_short_input_witness :
    parse_multiline_response "" true = .ok [] ∧
      parse_multiline_response "" false =
        .error (.noData "Invalid response format!") :=
  parse_multiline_short_input "" (by decide)

/-! ## Claim theorems for the cache signature -/

/-- C3: the cache signature is invariant under permutation of the request
dict (insertion order does not matter, keys being unique), it ignores the
`action` and `apikey` entries entirely (filtering them out leaves the
signature unchanged, so neither the credential key nor the action name
contributes), it is the fixed sentinel `response.txt` when only excluded
keys remain, and the `getuser`/`login=alice` request is addressed at
`root/getuser/login--alice.txt`. -/
theorem interception_signature_canonical :
    (∀ l1 l2 : List (String × String), (l1.map Prod.fst).Nodup → l1.Perm l2 →
      interception_sig l1 = interception_sig l2) ∧
    (∀ l : List (String × String),
      interception_sig l = interception_sig
        (l.filter fun kv => !excludedKey kv.1)) ∧
    (∀ l : List (String × String), (∀ kv ∈ l, excludedKey kv.1 = true) →
      interception_sig l = "response.txt") ∧
    interception_path
      ⟨"http://x", "SECRETKEY", "root", false, "NOT_TRIED", none, -1, false⟩
      (reqData
        ⟨"http://x", "SECRETKEY", "root", false, "NOT_TRIED", none, -1, false⟩
        "getuser" [("login", "alice")]) =
      some "root/getuser/login--alice.txt" := by
  have hstep_skip : ∀ (req : List (String × String)) (a b : String),
      (!excludedKey b) = false → sigStep req a b = a := by
    intro req a b hb
    have hb2 : excludedKey b = true := by simpa using hb
    simp [sigStep, hb2]
  refine ⟨?_, ?_, ?_, by decide⟩
  · intro l1 l2 hn hp
    have hkeys : (l1.map Prod.fst).Perm (l2.map Prod.fst) := hp.map _
    have hsort : (l1.map Prod.fst).insertionSort strLeP =
        (l2.map Prod.fst).insertionSort strLeP :=
      List.eq_of_perm_of_sorted
        ((List.perm_insertionSort _ _).trans
          (hkeys.trans (List.perm_insertionSort _ _).symm))
        (List.sorted_insertionSort _ _) (List.sorted_insertionSort _ _)
    have hfold : List.foldl (sigStep l1) ""
        ((l2.map Prod.fst).insertionSort strLeP) =
        List.foldl (sigStep l2) "" ((l2.map Prod.fst).insertionSort strLeP) :=
      List.foldl_ext _ _ _ fun a b _ => by
        unfold sigStep pyGet
        rw [lookup_perm hp hn b]
    simp only [interception_sig]
    rw [hsort, hfold]
  · intro l
    have hkeysf : ((l.filter fun kv => !excludedKey kv.1).map Prod.fst) =
        (l.map Prod.fst).filter fun k => !excludedKey k := by
      have h := (@List.filter_map _ _ (fun k => !excludedKey k) Prod.fst l).symm
      simpa [Function.comp] using h
    have hsortf : (((l.map Prod.fst).filter fun k => !excludedKey k).insertionSort
        strLeP) =
        ((l.map Prod.fst).insertionSort strLeP).filter fun k => !excludedKey k :=
      List.eq_of_perm_of_sorted
        ((List.perm_insertionSort _ _).trans
          (((List.perm_insertionSort strLeP (l.map Prod.fst)).filter _).symm))
        (List.sorted_insertionSort _ _)
        ((List.sorted_insertionSort strLeP (l.map Prod.fst)).filter _)
    have hfold2 : List.foldl (sigStep (l.filter fun kv => !excludedKey kv.1)) ""
        (((l.map Prod.fst).insertionSort strLeP).filter fun k => !excludedKey k) =
        List.foldl (sigStep l) ""
          (((l.map Prod.fst).insertionSort strLeP).filter fun k =>
            !excludedKey k) :=
      List.foldl_ext _ _ _ fun a b hb => by
        have hbk : (!excludedKey b) = true := (List.mem_filter.mp hb).2
        unfold sigStep pyGet
        rw [lookup_filter_keep (fun k => !excludedKey k) l b hbk]
    have hfold3 : List.foldl (sigStep l) ""
        ((l.map Prod.fst).insertionSort strLeP) =
        List.foldl (sigStep l) ""
          (((l.map Prod.fst).insertionSort strLeP).filter fun k =>
            !excludedKey k) :=
      foldl_filter_of_skip _ _ (hstep_skip l) _ _
    simp only [interception_sig]
    rw [hkeysf, hsortf, hfold2, hfold3]
  · intro l hall
    have hfold : List.foldl (sigStep l) ""
        ((l.map Prod.fst).insertionSort strLeP) = "" := by
      apply foldl_of_all_skip (fun k => !excludedKey k) (sigStep l)
        (hstep_skip l)
      intro b hb
      have hb2 : b ∈ l.map Prod.fst := (List.mem_insertionSort strLeP).mp hb
      obtain ⟨kv, hkv, rfl⟩ := List.mem_map.mp hb2
      simp [hall kv hkv]
    simp only [interception_sig]
    rw [hfold]
    decide

/-- C3 witness: permutation invariance and the sentinel case at concrete
request dicts. -/
theorem interception_signature_canonical_witness :
    interception_sig [("b", "2"), ("a", "1")] =
      interception_sig [("a", "1"), ("b", "2")] ∧
    interception_sig [("action", "auth"), ("apikey", "k")] = "response.txt" :=
  ⟨interception_signature_canonical.1 [("b", "2"), ("a", "1")]
      [("a", "1"), ("b", "2")] (by decide) (by decide),
    interception_signature_canonical.2.2.1 [("action", "auth"), ("apikey", "k")]
      (by decide)⟩

/-! ## Helper lemmas for the connection layer -/

theorem fsLookup_fsWrite_self (fs : FS) (p v : String) :
    fsLookup (fsWrite fs p v) p = some v := by
  simp [fsLookup, fsWrite, List.lookup]

theorem interception_path_irrelevant_fields (c : PpmsConnection) (x : Bool)
    (y : String) (req : List (String × String)) :
    interception_path { c with last_served_from_cache := x, auth_state := y }
      req = interception_path c req := rfl

/-! ## Claim theorems for `request` -/

/-- C2: whatever response `request` goes on to inspect — served from the
cache or fetched on-line, on any action — if its body contains the
case-insensitive marker `request not authorized`, the auth state is set to
`FAILED` and a `ConnectionError` naming the requested action is raised; the
response is not returned. -/
theorem request_unauthorized_marker :
    ∀ (c : PpmsConnection) (fs : FS) (action : String)
      (params : List (String × String)) (skip : Bool) (online : Response),
      strContains (pyLower
        (servedResp c fs (reqData c action params) skip online).1.text)
        "request not authorized" = true →
      (request c fs action params skip online).result =
        .error (.connectionError ("Not authorized to run action `" ++
          pyGet (reqData c action params) "action" ++ "`")) ∧
      (request c fs action params skip online).conn.auth_state = "FAILED" := by
  intro c fs action params skip online h
  constructor <;> simp [request, h]

/-- C2 witness: an on-line response carrying the marker (with different
capitalization) raises and fails the auth state. -/
theorem request_unauthorized_marker_witness :
    (request ⟨"http://x", "k1k2", "", false, "NOT_TRIED", none, -1, false⟩ []
        "getusers" [] false ⟨"Request NOT authorized", 200⟩).result =
      .error (.connectionError ("Not authorized to run action `" ++
        pyGet (reqData
          ⟨"http://x", "k1k2", "", false, "NOT_TRIED", none, -1, false⟩
          "getusers" []) "action" ++ "`")) ∧
    (request ⟨"http://x", "k1k2", "", false, "NOT_TRIED", none, -1, false⟩ []
        "getusers" [] false ⟨"Request NOT authorized", 200⟩).conn.auth_state =
      "FAILED" :=
  request_unauthorized_marker
    ⟨"http://x", "k1k2", "", false, "NOT_TRIED", none, -1, false⟩ []
    "getusers" [] false ⟨"Request NOT authorized", 200⟩ (by decide)

/-- C1: with caching configured and the action cacheable (the interception
path exists), a `skip_cache=false` call whose signature file exists is
served from the cache: the cached body/status pair is returned (provided the
cached body does not carry the unauthorized marker, which raises instead —
see C2), the served-from-cache flag is set, no network call happens and the
cache is untouched; with `skip_cache=true` or no cache file, the on-line
POST happens, the flag is cleared, and the fetched body is written to the
cache file. -/
theorem request_cache_contract :
    ∀ (c : PpmsConnection) (fs : FS) (action : String)
      (params : List (String × String)) (online : Response) (p : String),
      c.cache_path ≠ "" →
      interception_path c (reqData c action params) = some p →
      (∀ body : String, fsLookup fs p = some body →
        strContains (pyLower body) "request not authorized" = false →
        (request c fs action params false online).result =
            .ok ⟨body, cachedStatus fs p⟩ ∧
          (request c fs action params false online).conn.last_served_from_cache
            = true ∧
          (request c fs action params false online).network = false ∧
          (request c fs action params false online).fs = fs) ∧
      (∀ skip : Bool, (skip = true ∨ fsLookup fs p = none) →
        (request c fs action params skip online).network = true ∧
          (request c fs action params skip online).conn.last_served_from_cache
            = false ∧
          fsLookup (request c fs action params skip online).fs p =
            some online.text) := by
  intro c fs action params online p hcp hpath
  constructor
  · intro body hbody hmarker
    have hread : intercept_read c fs (reqData c action params) =
        .ok ⟨body, cachedStatus fs p⟩ := by
      simp [intercept_read, hcp, hpath, hbody]
    have hserved : servedResp c fs (reqData c action params) false online =
        (⟨body, cachedStatus fs p⟩, true) := by
      simp [servedResp, hread]
    refine ⟨?_, ?_, ?_, ?_⟩ <;> simp [request, hserved, hmarker]
  · intro skip hskip
    have hserved : servedResp c fs (reqData c action params) skip online =
        (online, false) := by
      rcases hskip with rfl | hnone
      · simp [servedResp]
      · have hread : intercept_read c fs (reqData c action params) =
            .error () := by
          simp [intercept_read, hcp, hpath, hnone]
        cases skip
        · simp [servedResp, hread]
        · simp [servedResp]
    have hstore : intercept_store
        { c with last_served_from_cache := false } fs
        (reqData c action params) online = fsWrite fs p online.text := by
      simp [intercept_store, hcp]
      rw [show interception_path { c with last_served_from_cache := false }
          (reqData c action params) = some p from hpath]
    by_cases hm : strContains (pyLower online.text) "request not authorized"
      = true
    · refine ⟨?_, ?_, ?_⟩ <;>
        simp [request, hserved, hstore, hm, fsLookup_fsWrite_self]
    · refine ⟨?_, ?_, ?_⟩ <;>
        simp [request, hserved, hstore, hm, fsLookup_fsWrite_self]

/-- C1 witness: a seeded cache file is served with flag set and no store;
a cold cache triggers the on-line path and the write-back. -/
theorem request_cache_contract_witness :
    (request ⟨"http://x", "k1k2", "root", false, "NOT_TRIED", none, -1, false⟩
        [("root/getuser/login--alice.txt", "usr,eml\nalice,a at x")]
        "getuser" [("login", "alice")] false ⟨"online", 200⟩).result =
      .ok ⟨"usr,eml\nalice,a at x",
        cachedStatus [("root/getuser/login--alice.txt", "usr,eml\nalice,a at x")]
          "root/getuser/login--alice.txt"⟩ ∧
    (request ⟨"http://x", "k1k2", "root", false, "NOT_TRIED", none, -1, false⟩
        [] "getuser" [("login", "alice")] false ⟨"online", 200⟩).network =
      true :=
  ⟨((request_cache_contract
      ⟨"http://x", "k1k2", "root", false, "NOT_TRIED", none, -1, false⟩
      [("root/getuser/login--alice.txt", "usr,eml\nalice,a at x")]
      "getuser" [("login", "alice")] ⟨"online", 200⟩
      "root/getuser/login--alice.txt" (by decide) (by decide)).1
      "usr,eml\nalice,a at x" (by decide) (by decide)).1,
    ((request_cache_contract
      ⟨"http://x", "k1k2", "root", false, "NOT_TRIED", none, -1, false⟩
      [] "getuser" [("login", "alice")] ⟨"online", 200⟩
      "root/getuser/login--alice.txt" (by decide) (by decide)).2
      false (.inr (by decide))).1⟩

/-! ## Claim theorems for `__authenticate` -/

/-- C9 counterexample: a handshake body containing the substring `error` but
also the unauthorized marker ends in state `FAILED` (set by the `request`
layer, which checks first), not `FAILED-ERROR` — so "a body containing
`error` sets the state to `failed_error`" does not hold unconditionally. -/
theorem authenticate_marker_beats_error_text :
    (authenticate ⟨"http://x", "k1k2", "", false, "NOT_TRIED", none, -1, false⟩
        [] ⟨"error: request not authorized", 200⟩).conn.auth_state = "FAILED" ∧
    (authenticate ⟨"http://x", "k1k2", "", false, "NOT_TRIED", none, -1, false⟩
        [] ⟨"error: request not authorized", 200⟩).conn.auth_state ≠
      "FAILED-ERROR" ∧
    (authenticate ⟨"http://x", "k1k2", "", false, "NOT_TRIED", none, -1, false⟩
        [] ⟨"error: request not authorized", 200⟩).result =
      .error (.connectionError "Not authorized to run action `auth`") := by
  decide

/-- C9 (amended): during the handshake (on the on-line path, no cache
configured) the body text rules over the HTTP status, provided the body does
not carry the unauthorized marker (that marker is checked first and yields
`FAILED`): an `error` body gives `FAILED-ERROR` and raises; no error text
but a status other than 200 gives `FAILED-UNKNOWN` and raises; and the state
is `good` exactly when the body carries neither marker and the status is
200, in which case no exception is raised. -/
theorem authenticate_body_over_status :
    ∀ (c : PpmsConnection) (fs : FS) (online : Response),
      c.cache_path = "" →
      (strContains (pyLower online.text) "request not authorized" = false →
        strContains (pyLower online.text) "error" = true →
        (authenticate c fs online).conn.auth_state = "FAILED-ERROR" ∧
        (authenticate c fs online).result = .error (.connectionError
          ("Authentication failed with an error: " ++ online.text))) ∧
      (strContains (pyLower online.text) "request not authorized" = false →
        strContains (pyLower online.text) "error" = false →
        online.status_code ≠ 200 →
        (authenticate c fs online).conn.auth_state = "FAILED-UNKNOWN" ∧
        (authenticate c fs online).result = .error (.connectionError
          ("Authenticating against " ++ c.url ++ " with key [" ++
            pyTake2 c.api_key ++ "..." ++ pyTakeLast2 c.api_key ++
            "] FAILED!"))) ∧
      ((authenticate c fs online).conn.auth_state = "good" ↔
        (strContains (pyLower online.text) "request not authorized" = false ∧
          strContains (pyLower online.text) "error" = false ∧
          online.status_code = 200)) ∧
      ((authenticate c fs online).conn.auth_state = "good" →
        (authenticate c fs online).result = .ok ()) := by
  intro c fs online hcp
  have hserved : servedResp { c with auth_state := "attempting" } fs
      (reqData { c with auth_state := "attempting" } "auth" []) false online =
      (online, false) := by
    simp [servedResp, intercept_read, hcp]
  have hstore : intercept_store
      { c with auth_state := "attempting", last_served_from_cache := false } fs
      (reqData { c with auth_state := "attempting" } "auth" []) online = fs := by
    simp [intercept_store, hcp]
  by_cases hm : strContains (pyLower online.text) "request not authorized"
    = true
  · refine ⟨fun h1 _ => absurd hm (by simp [h1]), fun h1 _ _ => absurd hm (by simp [h1]), ?_, ?_⟩
    · constructor
      · intro hg
        exact absurd hg (by simp [authenticate, request, hserved, hstore, hm])
      · rintro ⟨h1, -, -⟩
        exact absurd hm (by simp [h1])
    · intro hg
      exact absurd hg (by simp [authenticate, request, hserved, hstore, hm])
  · have hm2 : strContains (pyLower online.text) "request not authorized"
        = false := by simpa using hm
    by_cases he : strContains (pyLower online.text) "error" = true
    · refine ⟨fun _ _ => ?_, fun _ h2 _ => absurd he (by simp [h2]), ?_, ?_⟩
      · constructor <;>
          simp [authenticate, request, hserved, hstore, hm2, he]
      · constructor
        · intro hg
          exact absurd hg
            (by simp [authenticate, request, hserved, hstore, hm2, he])
        · rintro ⟨-, h2, -⟩
          exact absurd he (by simp [h2])
      · intro hg
        exact absurd hg
          (by simp [authenticate, request, hserved, hstore, hm2, he])
    · have he2 : strContains (pyLower online.text) "error" = false := by
        simpa using he
      by_cases hs : online.status_code = 200
      · refine ⟨fun _ h2 => absurd he2 (by simp [h2]), fun _ _ h3 => absurd hs h3, ?_, ?_⟩
        · constructor
          · intro _
            exact ⟨hm2, he2, hs⟩
          · intro _
            simp [authenticate, request, hserved, hstore, hm2, he2, hs]
        · intro _
          simp [authenticate, request, hserved, hstore, hm2, he2, hs]
      · refine ⟨fun _ h2 => absurd he2 (by simp [h2]), fun _ _ _ => ?_, ?_, ?_⟩
        · constructor <;>
            simp [authenticate, request, hserved, hstore, hm2, he2, hs]
        · constructor
          · intro hg
            exact absurd hg
              (by simp [authenticate, request, hserved, hstore, hm2, he2, hs])
          · rintro ⟨-, -, h3⟩
            exact absurd h3 hs
        · intro hg
          exact absurd hg
            (by simp [authenticate, request, hserved, hstore, hm2, he2, hs])

/-- C9 amended witness: a clean 200 handshake ends in `good` with no
exception; an `error` body raises `FAILED-ERROR`. -/
theorem authenticate_body_over_status_witness :
    (authenticate ⟨"http://x", "k1k2", "", false, "NOT_TRIED", none, -1, false⟩
        [] ⟨"auth-ok", 200⟩).conn.auth_state = "good" ∧
    (authenticate ⟨"http://x", "k1k2", "", false, "NOT_TRIED", none, -1, false⟩
        [] ⟨"some error", 200⟩).conn.auth_state = "FAILED-ERROR" :=
  ⟨(authenticate_body_over_status
      ⟨"http://x", "k1k2", "", false, "NOT_TRIED", none, -1, false⟩ []
      ⟨"auth-ok", 200⟩ (by decide)).2.2.1.mpr
      ⟨by decide, by decide, by decide⟩,
    ((authenticate_body_over_status
      ⟨"http://x", "k1k2", "", false, "NOT_TRIED", none, -1, false⟩ []
      ⟨"some error", 200⟩ (by decide)).1 (by decide) (by decide)).1⟩

/-- C10: an on-line request (cache miss or `skip_cache`) whose response body
carries the unauthorized marker still writes that body to the cache file
before raising — the write is neither skipped nor rolled back — so an
identical follow-up call with caching enabled is served the stored
unauthorized body from the cache (flag set, no network) and raises again. -/
theorem request_unauthorized_response_cached :
    ∀ (c : PpmsConnection) (fs : FS) (action : String)
      (params : List (String × String)) (skip : Bool)
      (online online2 : Response) (p : String),
      c.cache_path ≠ "" →
      interception_path c (reqData c action params) = some p →
      (skip = true ∨ fsLookup fs p = none) →
      strContains (pyLower online.text) "request not authorized" = true →
      (request c fs action params skip online).network = true ∧
      fsLookup (request c fs action params skip online).fs p =
        some online.text ∧
      (request c fs action params skip online).result =
        .error (.connectionError ("Not authorized to run action `" ++
          pyGet (reqData c action params) "action" ++ "`")) ∧
      (request (request c fs action params skip online).conn
          (request c fs action params skip online).fs action params false
          online2).conn.last_served_from_cache = true ∧
      (request (request c fs action params skip online).conn
          (request c fs action params skip online).fs action params false
          online2).network = false ∧
      (request (request c fs action params skip online).conn
          (request c fs action params skip online).fs action params false
          online2).result =
        .error (.connectionError ("Not authorized to run action `" ++
          pyGet (reqData c action params) "action" ++ "`")) := by
  intro c fs action params skip online online2 p hcp hpath hmiss hm
  have hserved : servedResp c fs (reqData c action params) skip online =
      (online, false) := by
    rcases hmiss with rfl | hnone
    · simp [servedResp]
    · have hread : intercept_read c fs (reqData c action params) =
          .error () := by
        simp [intercept_read, hcp, hpath, hnone]
      cases skip
      · simp [servedResp, hread]
      · simp [servedResp]
  have hstore : intercept_store { c with last_served_from_cache := false } fs
      (reqData c action params) online = fsWrite fs p online.text := by
    simp [intercept_store, hcp]
    rw [show interception_path { c with last_served_from_cache := false }
        (reqData c action params) = some p from hpath]
  have hr1 : request c fs action params skip online =
      { result := .error (.connectionError ("Not authorized to run action `" ++
          pyGet (reqData c action params) "action" ++ "`"))
        conn := { c with last_served_from_cache := false, auth_state := "FAILED" }
        fs := fsWrite fs p online.text
        network := true } := by
    simp [request, hserved, hstore, hm]
  rw [hr1]
  have hreq2 : reqData { c with last_served_from_cache := false, auth_state := "FAILED" } action params = reqData c action params := rfl
  have hread2 : intercept_read { c with last_served_from_cache := false, auth_state := "FAILED" } (fsWrite fs p online.text)
      (reqData c action params) =
      .ok ⟨online.text, cachedStatus (fsWrite fs p online.text) p⟩ := by
    simp [intercept_read, hcp]
    rw [show interception_path { c with last_served_from_cache := false, auth_state := "FAILED" } (reqData c action params) = some p from hpath]
    simp [fsLookup_fsWrite_self]
  have hserved2 : servedResp { c with last_served_from_cache := false, auth_state := "FAILED" } (fsWrite fs p online.text)
      (reqData c action params) false online2 =
      (⟨online.text, cachedStatus (fsWrite fs p online.text) p⟩, true) := by
    simp [servedResp, hread2]
  refine ⟨rfl, fsLookup_fsWrite_self fs p online.text, rfl, ?_, ?_, ?_⟩ <;>
    simp [request, hreq2, hserved2, hm]

/-- C10 witness: a concrete unauthorized on-line response is written to the
cache and replayed from it on the follow-up call. -/
theorem request_unauthorized_response_cached_witness :
    fsLookup (request
        ⟨"http://x", "k1k2", "root", false, "NOT_TRIED", none, -1, false⟩
        [] "getuser" [("login", "alice")] false
        ⟨"request not authorized", 200⟩).fs
      "root/getuser/login--alice.txt" = some "request not authorized" :=
  (request_unauthorized_response_cached
    ⟨"http://x", "k1k2", "root", false, "NOT_TRIED", none, -1, false⟩
    [] "getuser" [("login", "alice")] false
    ⟨"request not authorized", 200⟩ ⟨"later", 200⟩
    "root/getuser/login--alice.txt" (by decide) (by decide)
    (.inr (by decide)) (by decide)).2.1

end Pyppms
